import Mathlib

/-!
Verification of the memory subsystem of `hobbesian-mind` (`core/memory.py`).
The `MemoryManager` class is embedded as a state type `MMState` (in-memory
buckets, on-disk buckets, bucket configurations, a logical clock standing for
`datetime.now()`), and its methods as explicit state-passing functions.
The LLM generation capability (`LLMClient.generate`) is abstracted as an
oracle `Gen : String → Except PyError String`; the temperature argument
(constant 0.5 in the source) is dropped.
-/

deriving instance DecidableEq for Except

namespace HobbesianMind

/-- A value stored in an entry's metadata mapping. -/
inductive MetaVal where
  | str (s : String)
  | nat (n : Nat)
  | bool (b : Bool)
deriving DecidableEq, Repr

/-- The dict built by `MemoryManager.add_memory`:
`{"content": ..., "timestamp": ..., "metadata": ...}`. Timestamps are the
logical clock value at creation. -/
structure MemoryEntry where
  content : String
  timestamp : Nat
  metadata : List (String × MetaVal)
deriving DecidableEq, Repr

/-- The dict built by `MemoryManager._summarize_bucket`:
`{"content", "timestamp", "bucket", "entries_summarized", "first_timestamp",
"last_timestamp"}`. -/
structure SummaryEntry where
  content : String
  timestamp : Nat
  bucket : String
  entries_summarized : Nat
  first_timestamp : Nat
  last_timestamp : Nat
deriving DecidableEq, Repr

/-- An element of a bucket list: either a plain memory dict or a summary
dict (both kinds live in the same Python lists). -/
inductive Entry where
  | mem (e : MemoryEntry)
  | summ (se : SummaryEntry)
deriving DecidableEq, Repr

/-- `entry["content"]`, defined on both dict shapes. -/
def Entry.content : Entry → String
  | .mem e => e.content
  | .summ se => se.content

/-- `entry["timestamp"]`, defined on both dict shapes. -/
def Entry.timestamp : Entry → Nat
  | .mem e => e.timestamp
  | .summ se => se.timestamp

/-- `entry.get("entries_summarized", 0)`: the key is present only on summary
dicts; the Python default `0` applies otherwise. -/
def Entry.entriesSummarizedD : Entry → Nat
  | .mem _ => 0
  | .summ se => se.entries_summarized

abbrev Bucket := List Entry

/-- A Python dict keyed by strings, as an insertion-ordered association
list (`self.buckets`, and the on-disk files keyed by bucket name). -/
abbrev Buckets := List (String × Bucket)

/-- Dict lookup `d.get(k)` / `k in d`. -/
def bget (bs : Buckets) (name : String) : Option Bucket :=
  match bs with
  | [] => none
  | (k, v) :: rest => if k = name then some v else bget rest name

/-- Dict update `d[k] = v`: overwrite in place if present, else insert at
the end (Python insertion order). -/
def bset (bs : Buckets) (name : String) (v : Bucket) : Buckets :=
  match bs with
  | [] => [(name, v)]
  | (k, w) :: rest => if k = name then (k, v) :: rest else (k, w) :: bset rest name v

/-- One entry of `bucket_configs`: the optional keys `"max_memories"` and
`"summary_prompt"` of a per-bucket config dict. -/
structure BucketConfig where
  max_memories : Option Nat
  summary_prompt : Option String
deriving DecidableEq, Repr

/-- Lookup in `self.bucket_configs`. -/
def cget (cs : List (String × BucketConfig)) (name : String) : Option BucketConfig :=
  match cs with
  | [] => none
  | (k, v) :: rest => if k = name then some v else cget rest name

/-- The state of a `MemoryManager` object: its fields plus the backing
store (`disk`) and a logical clock standing for `datetime.now()`. -/
structure MMState where
  max_recent_memories : Nat
  bucket_configs : List (String × BucketConfig)
  buckets : Buckets
  disk : Buckets
  clock : Nat
deriving DecidableEq, Repr

/-- Errors an operation may raise: a `KeyError` on a missing dict key, or
a generation failure from the LLM capability. -/
inductive PyError where
  | keyError (k : String)
  | genError (msg : String)
deriving DecidableEq, Repr

/-- The generation capability `generate(prompt, temperature=0.5)`. -/
abbrev Gen := String → Except PyError String

/-- The bucket names created by `MemoryManager.__init__`. -/
def defaultBucketNames : List String :=
  ["sense_impressions", "simple_imagination", "compound_imagination",
   "unguided_thoughts", "regulated_thoughts", "cause_seeking_thoughts",
   "effect_seeking_thoughts", "conversation", "memory_summaries"]

/-- `__init__`: hydrate each predefined bucket from its backing file if
present (`_load_bucket`), else start it empty. -/
def MMState.init (storageDisk : Buckets) (maxRecent : Nat)
    (configs : List (String × BucketConfig)) : MMState :=
  { max_recent_memories := maxRecent
    bucket_configs := configs
    buckets := defaultBucketNames.map (fun n => (n, (bget storageDisk n).getD []))
    disk := storageDisk
    clock := 0 }

/-- `_save_bucket`: write the bucket's current in-memory content to its
backing file. Call sites only invoke it on buckets present in `buckets`. -/
def save_bucket (s : MMState) (bucket_name : String) : MMState :=
  { s with disk := bset s.disk bucket_name ((bget s.buckets bucket_name).getD []) }

/-- Python slice `xs[-n:]` on a list (note `xs[-0:]` is the whole list). -/
def pyTakeLast {α : Type} (n : Nat) (xs : List α) : List α :=
  if n = 0 then xs else xs.drop (xs.length - n)

/-- Python slice `xs[:-n]` on a list (note `xs[:-0]` is the empty list). -/
def pyDropLast {α : Type} (n : Nat) (xs : List α) : List α :=
  if n = 0 then [] else xs.take (xs.length - n)

/-- One line of the block rendered by `_summarize_bucket`:
`f"MEMORY: {entry['content'][:200]}..."` when the content is longer than
200 characters, else `f"MEMORY: {entry['content']}"`. -/
def renderLine (e : Entry) : String :=
  if e.content.length > 200 then "MEMORY: " ++ e.content.take 200 ++ "..."
  else "MEMORY: " ++ e.content

/-- The generic summarization template used by `_summarize_bucket` when no
custom prompt is configured. -/
def defaultSummaryPrompt (bucket_name entries_text : String) : String :=
  "\n            Summarize the following " ++ bucket_name ++
  " memories while preserving the key points:\n            \n            " ++
  entries_text ++
  "\n            \n            Create a concise summary that captures the essential information.\n            Focus on the main concepts and details while reducing the length significantly.\n            "

/-- Lines 181-189 of `_summarize_bucket` (first half): the effective
`max_memories` — the configured value when the bucket has one, else the
process-wide `self.max_recent_memories`. -/
def effectiveMaxMemories (s : MMState) (bucket_name : String) : Nat :=
  match cget s.bucket_configs bucket_name with
  | some c => c.max_memories.getD s.max_recent_memories
  | none => s.max_recent_memories

/-- Lines 181-189 of `_summarize_bucket` (second half): the configured
`summary_prompt`, if any. -/
def configSummaryPrompt (s : MMState) (bucket_name : String) : Option String :=
  match cget s.bucket_configs bucket_name with
  | some c => c.summary_prompt
  | none => none

/-- Lines 198-222 of `_summarize_bucket`: render the entries to summarize
into a text block and build the prompt, substituting the block into the
custom template when one is configured. -/
def buildPrompt (s : MMState) (bucket_name : String) (entries : List Entry) : String :=
  let entries_text := String.intercalate "\n" (entries.map renderLine)
  match configSummaryPrompt s bucket_name with
  | some p => p.replace "\x7bentries\x7d" entries_text
  | none => defaultSummaryPrompt bucket_name entries_text

/-- Lines 236-240 of `_summarize_bucket`: create the derived summary
bucket if it is not yet a key of `self.buckets`. -/
def ensureSummaryBucket (s : MMState) (summary_bucket : String) : MMState :=
  match bget s.buckets summary_bucket with
  | none => { s with buckets := bset s.buckets summary_bucket [] }
  | some _ => s

/-- The mutating tail of `_summarize_bucket` (lines 227-247), entered once
the generation call has succeeded: tick the clock for `datetime.now()`,
create the derived summary bucket if absent, append the summary entry to
it, save it, replace the source bucket by its recent entries, save that.
Returns the final state and the list of states after each step. -/
def compaction (s : MMState) (bucket_name : String) (recent_entries : Bucket)
    (summary_entry : SummaryEntry) : MMState × List MMState :=
  let s1 := { s with clock := s.clock + 1 }
  let summary_bucket := bucket_name ++ "_summaries"
  let s2 := ensureSummaryBucket s1 summary_bucket
  let newSB := ((bget s2.buckets summary_bucket).getD []) ++ [Entry.summ summary_entry]
  let s3 := { s2 with buckets := bset s2.buckets summary_bucket newSB }
  let s4 := save_bucket s3 summary_bucket
  let s5 := { s4 with buckets := bset s4.buckets bucket_name recent_entries }
  let s6 := save_bucket s5 bucket_name
  (s6, [s1, s2, s3, s4, s5, s6])

/-- `_summarize_bucket(bucket_name)`. Returns the result (the summary
entry, `None` on the defensive no-op, or a raised error), the state after
the call (mutations done before a raise are kept, as in Python), and the
trace of states after each successive mutating step of the success path
(clock tick for `datetime.now()`, summary-bucket creation, summary append,
summary save, source-bucket truncation, source-bucket save). -/
def summarize_bucket (gen : Gen) (s : MMState) (bucket_name : String) :
    Except PyError (Option SummaryEntry) × MMState × List MMState :=
  let mm : Nat := effectiveMaxMemories s bucket_name
  match bget s.buckets bucket_name with
  | none => (Except.error (PyError.keyError bucket_name), s, [])
  | some cur =>
    let recent_entries := pyTakeLast mm cur
    match pyDropLast mm cur with
    | [] => (Except.ok none, s, [])
    | e0 :: rest =>
      match gen (buildPrompt s bucket_name (e0 :: rest)) with
      | Except.error err => (Except.error err, s, [])
      | Except.ok summary =>
        let summary_entry : SummaryEntry :=
          { content := summary
            timestamp := s.clock
            bucket := bucket_name
            entries_summarized := (e0 :: rest).length
            first_timestamp := e0.timestamp
            last_timestamp := ((e0 :: rest).getLastD e0).timestamp }
        let ct := compaction s bucket_name recent_entries summary_entry
        (Except.ok (some summary_entry), ct.1, ct.2)

/-- `add_memory(content, bucket_name, metadata)`: build the entry dict,
append it to the named bucket (a `KeyError` if the name is absent from
`self.buckets`), save, then evaluate the compaction trigger
`len(bucket) > max_memories * 2` when the bucket has a configured
`max_memories`. No exception handler: errors from compaction propagate. -/
def add_memory (gen : Gen) (s : MMState) (content : String) (bucket_name : String)
    (metadata : List (String × MetaVal)) : Except PyError MemoryEntry × MMState :=
  let memory : MemoryEntry := { content := content, timestamp := s.clock, metadata := metadata }
  let s0 := { s with clock := s.clock + 1 }
  match bget s0.buckets bucket_name with
  | none => (Except.error (PyError.keyError bucket_name), s0)
  | some l =>
    let s1 := { s0 with buckets := bset s0.buckets bucket_name (l ++ [Entry.mem memory]) }
    let s2 := save_bucket s1 bucket_name
    match cget s2.bucket_configs bucket_name with
    | some c =>
      match c.max_memories with
      | some m =>
        if ((bget s2.buckets bucket_name).getD []).length > m * 2 then
          match summarize_bucket gen s2 bucket_name with
          | (Except.error err, s3, _) => (Except.error err, s3)
          | (Except.ok _, s3, _) => (Except.ok memory, s3)
        else (Except.ok memory, s2)
      | none => (Except.ok memory, s2)
    | none => (Except.ok memory, s2)

/-- `get_recent_memories(bucket_name, limit=None)`: an omitted limit falls
back to the bucket's configured `max_memories`, else to the process-wide
`max_recent_memories`; then return `memories[-limit:] if memories else []`
(a `KeyError` if the bucket name is absent). -/
def get_recent_memories (s : MMState) (bucket_name : String) (limit : Option Nat) :
    Except PyError (List Entry) × MMState :=
  let lim : Nat := match limit with
    | some n => n
    | none =>
      match cget s.bucket_configs bucket_name with
      | some c => c.max_memories.getD s.max_recent_memories
      | none => s.max_recent_memories
  match bget s.buckets bucket_name with
  | none => (Except.error (PyError.keyError bucket_name), s)
  | some memories =>
    (Except.ok (if memories.isEmpty then [] else pyTakeLast lim memories), s)

/-- `get_bucket_with_summaries(bucket_name, include_summaries=True)`: the
full bucket content, preceded, when `<bucket>_summaries` exists and is
non-empty, by a synthesized memory entry carrying the latest summary. -/
def get_bucket_with_summaries (s : MMState) (bucket_name : String)
    (include_summaries : Bool) : Except PyError (List Entry) × MMState :=
  match bget s.buckets bucket_name with
  | none => (Except.error (PyError.keyError bucket_name), s)
  | some memories =>
    let summary_bucket := bucket_name ++ "_summaries"
    match include_summaries, bget s.buckets summary_bucket with
    | true, some (x :: xs) =>
      let latest_summary := (x :: xs).getLastD x
      let summary_memory : MemoryEntry :=
        { content := "SUMMARY OF OLDER " ++ bucket_name.toUpper ++ ": " ++
            latest_summary.content
          timestamp := latest_summary.timestamp
          metadata := [("is_summary", MetaVal.bool true),
                       ("entries_summarized", MetaVal.nat latest_summary.entriesSummarizedD)] }
      (Except.ok (Entry.mem summary_memory :: memories), s)
    | _, _ => (Except.ok memories, s)

/-- One `add_memory` call, as an element of an operation sequence. -/
structure Op where
  content : String
  bucket : String
  metadata : List (String × MetaVal)
deriving DecidableEq, Repr

/-- Run a sequence of `add_memory` calls, threading the state (mutations
made before a raised error are kept, as in Python). -/
def runOps (gen : Gen) (s : MMState) (ops : List Op) : MMState :=
  match ops with
  | [] => s
  | op :: rest => runOps gen (add_memory gen s op.content op.bucket op.metadata).2 rest

/-! ### Helper lemmas about the dict and slice primitives -/

theorem bget_bset_self (bs : Buckets) (n : String) (v : Bucket) :
    bget (bset bs n v) n = some v := by
  induction bs with
  | nil => simp [bset, bget]
  | cons hd tl ih =>
    obtain ⟨k, w⟩ := hd
    by_cases h : k = n
    · subst h
      simp [bset, bget]
    · simp [bset, bget, h, ih]

theorem bget_bset_ne (bs : Buckets) (n m : String) (v : Bucket) (h : m ≠ n) :
    bget (bset bs n v) m = bget bs m := by
  have hnm : ¬(n = m) := fun hh => h hh.symm
  induction bs with
  | nil =>
    simp only [bset, bget]
    rw [if_neg hnm]
  | cons hd tl ih =>
    obtain ⟨k, w⟩ := hd
    by_cases hk : k = n
    · subst hk
      simp only [bset, if_pos rfl, bget]
      rw [if_neg hnm, if_neg hnm]
    · simp only [bset, if_neg hk, bget]
      by_cases hkm : k = m
      · rw [if_pos hkm, if_pos hkm]
      · rw [if_neg hkm, if_neg hkm, ih]

theorem append_summaries_ne (n : String) : ¬(n ++ "_summaries" = n) := by
  intro h
  have h2 := congrArg String.length h
  rw [String.length_append] at h2
  have h3 : ("_summaries" : String).length = 10 := by decide
  omega

theorem pyTakeLast_length (n : Nat) (xs : List Entry) (h0 : n ≠ 0) (h : n ≤ xs.length) :
    (pyTakeLast n xs).length = n := by
  simp [pyTakeLast, h0, List.length_drop]
  omega

theorem pyTakeLast_concat (n : Nat) (h : n ≠ 0) (l : List Entry) (e : Entry) :
    ∃ l', pyTakeLast n (l ++ [e]) = l' ++ [e] := by
  refine ⟨l.drop ((l ++ [e]).length - n), ?_⟩
  simp only [pyTakeLast, h, if_false]
  rw [List.drop_append_eq_append_drop]
  have h2 : (l ++ [e]).length - n - l.length = 0 := by
    simp only [List.length_append, List.length_singleton]
    omega
  rw [h2]
  simp

theorem pyTakeLast_one_concat (l : List Entry) (e : Entry) :
    pyTakeLast 1 (l ++ [e]) = [e] := by
  simp only [pyTakeLast, one_ne_zero, if_false]
  have h : (l ++ [e]).length - 1 = l.length := by simp
  rw [h, List.drop_left]

/-! ### Characterization lemmas for `compaction` and `summarize_bucket` -/

theorem compaction_final (s : MMState) (bn : String) (rec : Bucket) (se : SummaryEntry) :
    bget (compaction s bn rec se).1.buckets bn = some rec ∧
    bget (compaction s bn rec se).1.buckets (bn ++ "_summaries") =
      some (((bget s.buckets (bn ++ "_summaries")).getD []) ++ [Entry.summ se]) ∧
    (∀ S, S ≠ bn → S ≠ bn ++ "_summaries" →
      bget (compaction s bn rec se).1.buckets S = bget s.buckets S) ∧
    (compaction s bn rec se).1.bucket_configs = s.bucket_configs ∧
    (compaction s bn rec se).1.max_recent_memories = s.max_recent_memories := by
  have hne : ¬(bn ++ "_summaries" = bn) := append_summaries_ne bn
  simp only [compaction, ensureSummaryBucket, save_bucket]
  cases hsb : bget s.buckets (bn ++ "_summaries") with
  | none =>
    simp only [hsb]
    refine ⟨bget_bset_self _ _ _, ?_, ?_, trivial, trivial⟩
    · rw [bget_bset_ne _ _ _ _ hne, bget_bset_self]
      simp [bget_bset_self]
    · intro S hS1 hS2
      rw [bget_bset_ne _ _ _ _ hS1, bget_bset_ne _ _ _ _ hS2, bget_bset_ne _ _ _ _ hS2]
  | some sl =>
    simp only [hsb]
    refine ⟨bget_bset_self _ _ _, ?_, ?_, trivial, trivial⟩
    · rw [bget_bset_ne _ _ _ _ hne, bget_bset_self]
    · intro S hS1 hS2
      rw [bget_bset_ne _ _ _ _ hS1, bget_bset_ne _ _ _ _ hS2]

theorem compaction_trace (s : MMState) (bn : String) (rec : Bucket) (se : SummaryEntry) :
    ∀ t ∈ (compaction s bn rec se).2,
      (bget t.buckets bn ≠ bget s.buckets bn ∨ bget t.disk bn ≠ bget s.disk bn) →
      Entry.summ se ∈ (bget t.disk (bn ++ "_summaries")).getD [] := by
  intro t ht hch
  have hne : ¬(bn ++ "_summaries" = bn) := append_summaries_ne bn
  have hne' : ¬(bn = bn ++ "_summaries") := fun hh => hne hh.symm
  simp only [compaction, ensureSummaryBucket, save_bucket] at ht
  cases hsb : bget s.buckets (bn ++ "_summaries") with
  | none =>
    rw [hsb] at ht
    simp only [List.mem_cons, List.not_mem_nil, or_false] at ht
    rcases ht with rfl | rfl | rfl | rfl | rfl | rfl
    · rcases hch with h | h
      · exact absurd rfl h
      · exact absurd rfl h
    · rcases hch with h | h
      · rw [bget_bset_ne _ _ _ _ hne'] at h
        exact absurd rfl h
      · exact absurd rfl h
    · rcases hch with h | h
      · rw [bget_bset_ne _ _ _ _ hne', bget_bset_ne _ _ _ _ hne'] at h
        exact absurd rfl h
      · exact absurd rfl h
    · rcases hch with h | h
      · rw [bget_bset_ne _ _ _ _ hne', bget_bset_ne _ _ _ _ hne'] at h
        exact absurd rfl h
      · rw [bget_bset_ne _ _ _ _ hne'] at h
        exact absurd rfl h
    · dsimp only
      rw [bget_bset_self]
      simp [bget_bset_self]
    · dsimp only
      rw [bget_bset_ne _ _ _ _ hne, bget_bset_self]
      simp [bget_bset_self]
  | some sl =>
    rw [hsb] at ht
    simp only [List.mem_cons, List.not_mem_nil, or_false] at ht
    rcases ht with rfl | rfl | rfl | rfl | rfl | rfl
    · rcases hch with h | h
      · exact absurd rfl h
      · exact absurd rfl h
    · rcases hch with h | h
      · exact absurd rfl h
      · exact absurd rfl h
    · rcases hch with h | h
      · rw [bget_bset_ne _ _ _ _ hne'] at h
        exact absurd rfl h
      · exact absurd rfl h
    · rcases hch with h | h
      · rw [bget_bset_ne _ _ _ _ hne'] at h
        exact absurd rfl h
      · rw [bget_bset_ne _ _ _ _ hne'] at h
        exact absurd rfl h
    · dsimp only
      rw [bget_bset_self]
      simp [bget_bset_self]
    · dsimp only
      rw [bget_bset_ne _ _ _ _ hne, bget_bset_self]
      simp [bget_bset_self]

theorem summarize_bucket_error (gen : Gen) (s : MMState) (bn : String) (e : PyError)
    (s' : MMState) (tr : List MMState)
    (h : summarize_bucket gen s bn = (Except.error e, s', tr)) : s' = s ∧ tr = [] := by
  simp only [summarize_bucket] at h
  cases hb : bget s.buckets bn with
  | none =>
    rw [hb] at h
    dsimp only at h
    simp only [Prod.mk.injEq] at h
    exact ⟨h.2.1.symm, h.2.2.symm⟩
  | some cur =>
    rw [hb] at h
    dsimp only at h
    cases hd : pyDropLast (effectiveMaxMemories s bn) cur with
    | nil =>
      rw [hd] at h
      dsimp only at h
      simp at h
    | cons e0 rest =>
      rw [hd] at h
      dsimp only at h
      cases hg : gen (buildPrompt s bn (e0 :: rest)) with
      | error err =>
        rw [hg] at h
        dsimp only at h
        simp only [Prod.mk.injEq] at h
        exact ⟨h.2.1.symm, h.2.2.symm⟩
      | ok summary =>
        rw [hg] at h
        dsimp only at h
        simp at h

theorem summarize_bucket_ok_none (gen : Gen) (s : MMState) (bn : String)
    (s' : MMState) (tr : List MMState)
    (h : summarize_bucket gen s bn = (Except.ok none, s', tr)) :
    s' = s ∧ tr = [] ∧
      ∃ cur, bget s.buckets bn = some cur ∧
        pyDropLast (effectiveMaxMemories s bn) cur = [] := by
  simp only [summarize_bucket] at h
  cases hb : bget s.buckets bn with
  | none =>
    rw [hb] at h
    dsimp only at h
    simp at h
  | some cur =>
    rw [hb] at h
    dsimp only at h
    cases hd : pyDropLast (effectiveMaxMemories s bn) cur with
    | nil =>
      rw [hd] at h
      dsimp only at h
      simp only [Prod.mk.injEq] at h
      exact ⟨h.2.1.symm, h.2.2.symm, cur, rfl, hd⟩
    | cons e0 rest =>
      rw [hd] at h
      dsimp only at h
      cases hg : gen (buildPrompt s bn (e0 :: rest)) with
      | error err =>
        rw [hg] at h
        dsimp only at h
        simp at h
      | ok summary =>
        rw [hg] at h
        dsimp only at h
        simp at h

theorem summarize_bucket_ok_some (gen : Gen) (s : MMState) (bn : String)
    (se : SummaryEntry) (s' : MMState) (tr : List MMState)
    (h : summarize_bucket gen s bn = (Except.ok (some se), s', tr)) :
    ∃ cur, bget s.buckets bn = some cur ∧
      pyDropLast (effectiveMaxMemories s bn) cur ≠ [] ∧
      s' = (compaction s bn (pyTakeLast (effectiveMaxMemories s bn) cur) se).1 ∧
      tr = (compaction s bn (pyTakeLast (effectiveMaxMemories s bn) cur) se).2 := by
  simp only [summarize_bucket] at h
  cases hb : bget s.buckets bn with
  | none =>
    rw [hb] at h
    dsimp only at h
    simp at h
  | some cur =>
    rw [hb] at h
    dsimp only at h
    cases hd : pyDropLast (effectiveMaxMemories s bn) cur with
    | nil =>
      rw [hd] at h
      dsimp only at h
      simp at h
    | cons e0 rest =>
      rw [hd] at h
      dsimp only at h
      cases hg : gen (buildPrompt s bn (e0 :: rest)) with
      | error err =>
        rw [hg] at h
        dsimp only at h
        simp at h
      | ok summary =>
        rw [hg] at h
        dsimp only at h
        simp only [Prod.mk.injEq, Except.ok.injEq, Option.some.injEq] at h
        obtain ⟨h1, h2, h3⟩ := h
        subst h1
        refine ⟨cur, rfl, ?_, h2.symm, h3.symm⟩
        rw [hd]
        simp

/-- The state reached by `add_memory` lines 59-66 when the bucket exists:
entry appended in memory and the bucket saved to disk, clock ticked once
for `datetime.now()`. -/
def postAppend (s : MMState) (bn : String) (l : Bucket) (m : MemoryEntry) : MMState :=
  { s with clock := s.clock + 1
           buckets := bset s.buckets bn (l ++ [Entry.mem m])
           disk := bset s.disk bn (l ++ [Entry.mem m]) }

theorem add_memory_spec (gen : Gen) (s : MMState) (c bn : String)
    (md : List (String × MetaVal)) :
    (bget s.buckets bn = none ∧
       add_memory gen s c bn md =
         (Except.error (PyError.keyError bn), { s with clock := s.clock + 1 })) ∨
    ∃ l, bget s.buckets bn = some l ∧
      ∀ s2, s2 = postAppend s bn l ⟨c, s.clock, md⟩ →
      (((∀ cfg, cget s.bucket_configs bn = some cfg →
           ∀ r, cfg.max_memories = some r → l.length + 1 ≤ r * 2) ∧
         add_memory gen s c bn md = (Except.ok ⟨c, s.clock, md⟩, s2)) ∨
       (∃ cfg r, cget s.bucket_configs bn = some cfg ∧ cfg.max_memories = some r ∧
         l.length + 1 > r * 2 ∧
         ((∃ e s3 tr, summarize_bucket gen s2 bn = (Except.error e, s3, tr) ∧
             add_memory gen s c bn md = (Except.error e, s3)) ∨
          (∃ o s3 tr, summarize_bucket gen s2 bn = (Except.ok o, s3, tr) ∧
             add_memory gen s c bn md = (Except.ok ⟨c, s.clock, md⟩, s3))))) := by
  cases hb : bget s.buckets bn with
  | none =>
    left
    refine ⟨rfl, ?_⟩
    simp only [add_memory]
    rw [hb]
  | some l =>
    right
    refine ⟨l, rfl, ?_⟩
    intro s2 hs2
    have hred : add_memory gen s c bn md =
        (match cget s.bucket_configs bn with
         | some c0 =>
           match c0.max_memories with
           | some m0 =>
             if (l ++ [Entry.mem ⟨c, s.clock, md⟩]).length > m0 * 2 then
               match summarize_bucket gen s2 bn with
               | (Except.error err, s3, _) => (Except.error err, s3)
               | (Except.ok _, s3, _) => (Except.ok ⟨c, s.clock, md⟩, s3)
             else (Except.ok ⟨c, s.clock, md⟩, s2)
           | none => (Except.ok ⟨c, s.clock, md⟩, s2)
         | none => (Except.ok ⟨c, s.clock, md⟩, s2)) := by
      subst hs2
      simp only [add_memory, save_bucket, postAppend]
      rw [hb]
      dsimp only
      simp only [bget_bset_self, Option.getD_some]
    cases hc : cget s.bucket_configs bn with
    | none =>
      left
      refine ⟨?_, ?_⟩
      · intro cfg hcfg
        cases hcfg
      · rw [hred, hc]
    | some cfg =>
      cases hm : cfg.max_memories with
      | none =>
        left
        refine ⟨?_, ?_⟩
        · intro cfg' hcfg' r hr
          have hcc := Option.some.inj hcfg'
          subst hcc
          rw [hm] at hr
          cases hr
        · rw [hred, hc]
          dsimp only
          rw [hm]
      | some r =>
        by_cases hgt : (l ++ [Entry.mem ⟨c, s.clock, md⟩]).length > r * 2
        · right
          refine ⟨cfg, r, rfl, hm, by simpa using hgt, ?_⟩
          rcases hS : summarize_bucket gen s2 bn with ⟨res, s3, tr⟩
          cases res with
          | error e =>
            left
            refine ⟨e, s3, tr, rfl, ?_⟩
            rw [hred, hc]
            dsimp only
            rw [hm]
            dsimp only
            rw [if_pos hgt, hS]
          | ok o =>
            right
            refine ⟨o, s3, tr, rfl, ?_⟩
            rw [hred, hc]
            dsimp only
            rw [hm]
            dsimp only
            rw [if_pos hgt, hS]
        · left
          refine ⟨?_, ?_⟩
          · intro cfg' hcfg' r' hr'
            have hcc := Option.some.inj hcfg'
            subst hcc
            rw [hm] at hr'
            have hrr := Option.some.inj hr'
            subst hrr
            simpa using hgt
          · rw [hred, hc]
            dsimp only
            rw [hm]
            dsimp only
            rw [if_neg hgt]

theorem pyDropLast_eq_nil_le (n : Nat) (xs : List Entry) (hn : n ≠ 0)
    (h : pyDropLast n xs = []) : xs.length ≤ n := by
  simp only [pyDropLast, hn, if_false] at h
  rcases List.take_eq_nil_iff.mp h with h1 | h2
  · omega
  · subst h2
    simp

theorem pyDropLast_ne_nil_imp (n : Nat) (xs : List Entry)
    (h : pyDropLast n xs ≠ []) : n ≠ 0 := by
  intro h0
  subst h0
  simp [pyDropLast] at h

theorem effectiveMaxMemories_eq (s : MMState) (bn : String) (cfg : BucketConfig) (r : Nat)
    (hcfg : cget s.bucket_configs bn = some cfg) (hr : cfg.max_memories = some r) :
    effectiveMaxMemories s bn = r := by
  simp [effectiveMaxMemories, hcfg, hr]

/-! ### Concrete generation oracles used in counterexamples and witnesses -/

/-- A generation capability that always succeeds with the text "GIST". -/
def genGist : Gen := fun _ => Except.ok "GIST"

/-- A generation capability that always fails (injected fault). -/
def genBoom : Gen := fun _ => Except.error (PyError.genError "boom")

/-! ### Claim C1 -/

/-- A backing store in which the (unregistered) bucket `"conversation"`
already holds ten entries. -/
def c1Disk : Buckets :=
  [("conversation", (List.range 10).map (fun i => Entry.mem ⟨"x", i, []⟩))]

/-- C1 as stated is false: for an unregistered bucket the claimed default
retention of 5 would force `len ≤ 10` after any append, but `add_memory`
evaluates no compaction trigger for unregistered buckets — an 11th append
returns successfully leaving 11 entries. -/
theorem C1_counterexample :
    (add_memory genGist (MMState.init c1Disk 5 []) "k" "conversation" []).1 =
      Except.ok ⟨"k", 0, []⟩ ∧
    ((bget (add_memory genGist (MMState.init c1Disk 5 []) "k" "conversation" []).2.buckets
        "conversation").getD []).length = 11 ∧
    ¬(11 ≤ 2 * 5) := by
  decide

/-- C1 (amended): bounded growth holds only for buckets registered in
`bucket_configs` with a `max_memories` value `r ≥ 1`: after any successful
`add_memory` to such a bucket, `len(B) ≤ 2r`, and when the append pushed
the length strictly above `2r`, the compaction leaves `len(B) = r`.
Unregistered buckets are never compacted by `add_memory`. -/
theorem C1_bounded_growth (gen : Gen) (s : MMState) (c bn : String)
    (md : List (String × MetaVal)) (cfg : BucketConfig) (r : Nat) (l : Bucket)
    (m : MemoryEntry) (s' : MMState)
    (hcfg : cget s.bucket_configs bn = some cfg) (hr : cfg.max_memories = some r)
    (hr1 : 1 ≤ r) (hl : bget s.buckets bn = some l)
    (h : add_memory gen s c bn md = (Except.ok m, s')) :
    ∃ l', bget s'.buckets bn = some l' ∧ l'.length ≤ 2 * r ∧
      (2 * r < l.length + 1 → l'.length = r) := by
  rcases add_memory_spec gen s c bn md with ⟨hnone, _⟩ | ⟨l0, hl0, hrest⟩
  · rw [hl] at hnone
    cases hnone
  · rw [hl] at hl0
    have hl0' := Option.some.inj hl0
    subst hl0'
    have hrest2 := hrest (postAppend s bn l ⟨c, s.clock, md⟩) rfl
    rcases hrest2 with ⟨hno, heq⟩ | ⟨cfg', r', hc', hm', hgt', hinner⟩
    · rw [h] at heq
      simp only [Prod.mk.injEq, Except.ok.injEq] at heq
      obtain ⟨hm0, hs2⟩ := heq
      subst hs2
      have hbound := hno cfg hcfg r hr
      refine ⟨l ++ [Entry.mem ⟨c, s.clock, md⟩], ?_, ?_, ?_⟩
      · simp [postAppend, bget_bset_self]
      · simp only [List.length_append, List.length_singleton]
        omega
      · intro hgt
        simp only [List.length_append, List.length_singleton]
        omega
    · rw [hcfg] at hc'
      have hcc := Option.some.inj hc'
      subst hcc
      rw [hr] at hm'
      have hrr := Option.some.inj hm'
      subst hrr
      have heff : effectiveMaxMemories (postAppend s bn l ⟨c, s.clock, md⟩) bn = r :=
        effectiveMaxMemories_eq _ _ cfg r hcfg hr
      have hcur2 : bget (postAppend s bn l ⟨c, s.clock, md⟩).buckets bn =
          some (l ++ [Entry.mem ⟨c, s.clock, md⟩]) := by
        simp [postAppend, bget_bset_self]
      rcases hinner with ⟨e, s3, tr, hS, heq⟩ | ⟨o, s3, tr, hS, heq⟩
      · rw [h] at heq
        simp at heq
      · rw [h] at heq
        simp only [Prod.mk.injEq, Except.ok.injEq] at heq
        obtain ⟨hm0, hs3⟩ := heq
        subst hs3
        cases o with
        | none =>
          obtain ⟨_, _, cur, hcur, hdrop⟩ :=
            summarize_bucket_ok_none gen _ bn s' tr hS
          rw [hcur2] at hcur
          have hcc2 := Option.some.inj hcur
          subst hcc2
          rw [heff] at hdrop
          have hle := pyDropLast_eq_nil_le r _ (by omega) hdrop
          simp only [List.length_append, List.length_singleton] at hle
          omega
        | some se =>
          obtain ⟨cur, hcur, hdropne, hs3f, _⟩ :=
            summarize_bucket_ok_some gen _ bn se s' tr hS
          rw [hcur2] at hcur
          have hcc2 := Option.some.inj hcur
          subst hcc2
          rw [heff] at hs3f
          subst hs3f
          obtain ⟨hfb, _, _, _, _⟩ :=
            compaction_final (postAppend s bn l ⟨c, s.clock, md⟩) bn
              (pyTakeLast r (l ++ [Entry.mem ⟨c, s.clock, md⟩])) se
          have hlen : (pyTakeLast r (l ++ [Entry.mem ⟨c, s.clock, md⟩])).length = r := by
            apply pyTakeLast_length r _ (by omega)
            simp only [List.length_append, List.length_singleton]
            omega
          refine ⟨_, hfb, ?_, fun _ => hlen⟩
          omega

/-- Witness for C1: a concrete append to a bucket registered with
retention 1 gives a bucket of at most 2 entries. -/
theorem C1_witness :
    ∃ l', bget (add_memory genGist (MMState.init [] 5 [("conversation", ⟨some 1, none⟩)])
        "x" "conversation" []).2.buckets "conversation" = some l' ∧
      l'.length ≤ 2 * 1 ∧
      (2 * 1 < List.length ([] : Bucket) + 1 → l'.length = 1) := by
  apply C1_bounded_growth genGist (MMState.init [] 5 [("conversation", ⟨some 1, none⟩)])
    "x" "conversation" [] ⟨some 1, none⟩ 1 [] ⟨"x", 0, []⟩ _ (by decide) (by decide)
    (by decide) (by decide)
  have h1 : (add_memory genGist (MMState.init [] 5 [("conversation", ⟨some 1, none⟩)])
      "x" "conversation" []).1 = Except.ok ⟨"x", 0, []⟩ := by decide
  exact Prod.ext h1 rfl

/-! ### Claim C2 -/

/-- C2: if the generation call of a compaction fails, the whole state —
in-memory and on-disk — is exactly what it was before the attempt; and in
a successful compaction, at every intermediate step at which the source
bucket has been shortened in memory or rewritten on disk, the new
SummaryEntry is already durably stored in the derived summary bucket. -/
theorem C2_summary_precedes_truncation (gen : Gen) (s : MMState) (bn : String)
    (res : Except PyError (Option SummaryEntry)) (s' : MMState) (tr : List MMState)
    (h : summarize_bucket gen s bn = (res, s', tr)) :
    ((∃ e, res = Except.error e) → s' = s ∧ tr = []) ∧
    (∀ se, res = Except.ok (some se) → ∀ t ∈ tr,
      (((bget t.buckets bn).getD []).length < ((bget s.buckets bn).getD []).length ∨
        bget t.disk bn ≠ bget s.disk bn) →
      Entry.summ se ∈ (bget t.disk (bn ++ "_summaries")).getD []) := by
  constructor
  · rintro ⟨e, rfl⟩
    exact summarize_bucket_error gen s bn e s' tr h
  · rintro se rfl t ht hch
    obtain ⟨cur, hcur, hne, hs', htr⟩ := summarize_bucket_ok_some gen s bn se s' tr h
    subst htr
    refine compaction_trace s bn _ se t ht ?_
    rcases hch with hlen | hdisk
    · left
      intro hequal
      rw [hequal] at hlen
      omega
    · right
      exact hdisk

/-- A reachable state in which the registered bucket `"conversation"`
(retention 1) holds three entries, so a compaction will summarize two. -/
def c2State : MMState :=
  { max_recent_memories := 5
    bucket_configs := [("conversation", ⟨some 1, none⟩)]
    buckets := [("conversation",
      [Entry.mem ⟨"p", 0, []⟩, Entry.mem ⟨"q", 1, []⟩, Entry.mem ⟨"r", 2, []⟩])]
    disk := [("conversation",
      [Entry.mem ⟨"p", 0, []⟩, Entry.mem ⟨"q", 1, []⟩, Entry.mem ⟨"r", 2, []⟩])]
    clock := 10 }

/-- Witness for C2 at a concrete compaction: the final state has the new
SummaryEntry on disk in `"conversation_summaries"`. -/
theorem C2_witness :
    Entry.summ ⟨"GIST", 10, "conversation", 2, 0, 1⟩ ∈
      (bget (summarize_bucket genGist c2State "conversation").2.1.disk
        ("conversation" ++ "_summaries")).getD [] := by
  have h := C2_summary_precedes_truncation genGist c2State "conversation"
    (summarize_bucket genGist c2State "conversation").1
    (summarize_bucket genGist c2State "conversation").2.1
    (summarize_bucket genGist c2State "conversation").2.2 rfl
  exact h.2 ⟨"GIST", 10, "conversation", 2, 0, 1⟩ (by decide)
    (summarize_bucket genGist c2State "conversation").2.1 (by decide) (by decide)

/-! ### Claim C3 -/

/-- C3 as stated is false: appending to a never-seen bucket name does not
lazily create the bucket — `self.buckets[bucket_name]` raises `KeyError`
and no entry is stored anywhere. -/
theorem C3_counterexample :
    (add_memory genGist (MMState.init [] 5 []) "x" "new_bucket" []).1 =
      Except.error (PyError.keyError "new_bucket") ∧
    bget (add_memory genGist (MMState.init [] 5 []) "x" "new_bucket" []).2.buckets
      "new_bucket" = none := by
  decide

/-- C3 (amended): `add_memory` succeeds exactly on bucket names present in
the store's bucket map (the nine predefined buckets, or summary buckets
created by earlier compactions); after any successful append,
`recent(name, 1)` returns exactly one entry carrying the appended
content. -/
theorem C3_append_recent_roundtrip (gen : Gen) (s : MMState) (c bn : String)
    (md : List (String × MetaVal)) (m : MemoryEntry) (s' : MMState)
    (h : add_memory gen s c bn md = (Except.ok m, s')) :
    m.content = c ∧
    get_recent_memories s' bn (some 1) = (Except.ok [Entry.mem m], s') := by
  have key : ∀ pre, bget s'.buckets bn = some (pre ++ [Entry.mem m]) →
      get_recent_memories s' bn (some 1) = (Except.ok [Entry.mem m], s') := by
    intro pre hpre
    simp only [get_recent_memories]
    rw [hpre]
    dsimp only
    rw [pyTakeLast_one_concat]
    have hemp : (pre ++ [Entry.mem m]).isEmpty = false := by
      cases pre <;> rfl
    rw [hemp]
    rfl
  rcases add_memory_spec gen s c bn md with ⟨hnone, heq⟩ | ⟨l, hl, hrest⟩
  · rw [h] at heq
    simp at heq
  · have hrest2 := hrest (postAppend s bn l ⟨c, s.clock, md⟩) rfl
    rcases hrest2 with ⟨hno, heq⟩ | ⟨cfg', r', hc', hm', hgt', hinner⟩
    · rw [h] at heq
      simp only [Prod.mk.injEq, Except.ok.injEq] at heq
      obtain ⟨hm0, hs2⟩ := heq
      subst hm0
      subst hs2
      refine ⟨rfl, key l ?_⟩
      simp [postAppend, bget_bset_self]
    · have hcur2 : bget (postAppend s bn l ⟨c, s.clock, md⟩).buckets bn =
          some (l ++ [Entry.mem ⟨c, s.clock, md⟩]) := by
        simp [postAppend, bget_bset_self]
      rcases hinner with ⟨e, s3, tr, hS, heq⟩ | ⟨o, s3, tr, hS, heq⟩
      · rw [h] at heq
        simp at heq
      · rw [h] at heq
        simp only [Prod.mk.injEq, Except.ok.injEq] at heq
        obtain ⟨hm0, hs3⟩ := heq
        subst hm0
        subst hs3
        cases o with
        | none =>
          obtain ⟨hs2, _, _⟩ := summarize_bucket_ok_none gen _ bn s' tr hS
          subst hs2
          exact ⟨rfl, key l hcur2⟩
        | some se =>
          obtain ⟨cur, hcur, hdropne, hs3f, _⟩ :=
            summarize_bucket_ok_some gen _ bn se s' tr hS
          rw [hcur2] at hcur
          have hcc2 := Option.some.inj hcur
          subst hcc2
          subst hs3f
          obtain ⟨hfb, _, _, _, _⟩ :=
            compaction_final (postAppend s bn l ⟨c, s.clock, md⟩) bn
              (pyTakeLast (effectiveMaxMemories (postAppend s bn l ⟨c, s.clock, md⟩) bn)
                (l ++ [Entry.mem ⟨c, s.clock, md⟩])) se
          have heff0 : effectiveMaxMemories (postAppend s bn l ⟨c, s.clock, md⟩) bn ≠ 0 :=
            pyDropLast_ne_nil_imp _ _ hdropne
          obtain ⟨pre, hsplit⟩ := pyTakeLast_concat _ heff0 l (Entry.mem ⟨c, s.clock, md⟩)
          nth_rewrite 2 [hsplit] at hfb
          exact ⟨rfl, key pre hfb⟩

/-- Witness for C3: appending to the predefined `"conversation"` bucket
and reading back one recent entry. -/
theorem C3_witness :
    (⟨"x", 0, []⟩ : MemoryEntry).content = "x" ∧
    get_recent_memories (add_memory genGist (MMState.init [] 5 []) "x" "conversation" []).2
        "conversation" (some 1) =
      (Except.ok [Entry.mem ⟨"x", 0, []⟩],
        (add_memory genGist (MMState.init [] 5 []) "x" "conversation" []).2) := by
  apply C3_append_recent_roundtrip genGist (MMState.init [] 5 []) "x" "conversation" []
    ⟨"x", 0, []⟩ _
  have h1 : (add_memory genGist (MMState.init [] 5 []) "x" "conversation" []).1 =
      Except.ok ⟨"x", 0, []⟩ := by decide
  exact Prod.ext h1 rfl

/-! ### Claim C4 -/

/-- A store whose registered bucket `"conversation"` (retention 1) holds
two entries hydrated from disk, so the next append fires the trigger. -/
def c4State : MMState :=
  MMState.init [("conversation", [Entry.mem ⟨"p", 0, []⟩, Entry.mem ⟨"q", 1, []⟩])]
    5 [("conversation", ⟨some 1, none⟩)]

/-- C4 as stated is false: there is no exception handler around the
compaction call, so when generation fails during a triggered compaction
the error propagates and `add_memory` does not return its entry. -/
theorem C4_counterexample :
    (add_memory genBoom c4State "r" "conversation" []).1 =
      Except.error (PyError.genError "boom") := by
  decide

/-- C4 (amended): a generation failure during a triggered compaction
propagates out of `add_memory` (the append does not return its entry to
the caller); the newly appended entry itself is nonetheless already
stored in memory and on disk, and nothing is truncated — the final state
is exactly the post-append state. -/
theorem C4_generation_failure_propagates (gen : Gen) (s : MMState) (c bn : String)
    (md : List (String × MetaVal)) (cfg : BucketConfig) (r : Nat) (l : Bucket) (msg : String)
    (hcfg : cget s.bucket_configs bn = some cfg) (hr : cfg.max_memories = some r)
    (hr1 : 1 ≤ r) (hl : bget s.buckets bn = some l) (hgt : l.length + 1 > r * 2)
    (hgen : ∀ p, gen p = Except.error (PyError.genError msg)) :
    add_memory gen s c bn md =
      (Except.error (PyError.genError msg), postAppend s bn l ⟨c, s.clock, md⟩) ∧
    bget (postAppend s bn l ⟨c, s.clock, md⟩).buckets bn =
      some (l ++ [Entry.mem ⟨c, s.clock, md⟩]) ∧
    bget (postAppend s bn l ⟨c, s.clock, md⟩).disk bn =
      some (l ++ [Entry.mem ⟨c, s.clock, md⟩]) := by
  have hcur2 : bget (postAppend s bn l ⟨c, s.clock, md⟩).buckets bn =
      some (l ++ [Entry.mem ⟨c, s.clock, md⟩]) := by
    simp [postAppend, bget_bset_self]
  have hdisk2 : bget (postAppend s bn l ⟨c, s.clock, md⟩).disk bn =
      some (l ++ [Entry.mem ⟨c, s.clock, md⟩]) := by
    simp [postAppend, bget_bset_self]
  refine ⟨?_, hcur2, hdisk2⟩
  have heff : effectiveMaxMemories (postAppend s bn l ⟨c, s.clock, md⟩) bn = r :=
    effectiveMaxMemories_eq _ _ cfg r hcfg hr
  have hS : summarize_bucket gen (postAppend s bn l ⟨c, s.clock, md⟩) bn =
      (Except.error (PyError.genError msg), postAppend s bn l ⟨c, s.clock, md⟩, []) := by
    simp only [summarize_bucket, heff]
    rw [hcur2]
    dsimp only
    cases hd : pyDropLast r (l ++ [Entry.mem ⟨c, s.clock, md⟩]) with
    | nil =>
      have hle := pyDropLast_eq_nil_le r _ (by omega) hd
      simp only [List.length_append, List.length_singleton] at hle
      omega
    | cons e0 rest =>
      dsimp only
      rw [hgen _]
  rcases add_memory_spec gen s c bn md with ⟨hnone, _⟩ | ⟨l0, hl0, hrest⟩
  · rw [hl] at hnone
    cases hnone
  · rw [hl] at hl0
    have hl0' := Option.some.inj hl0
    subst hl0'
    have hrest2 := hrest (postAppend s bn l ⟨c, s.clock, md⟩) rfl
    rcases hrest2 with ⟨hno, heq⟩ | ⟨cfg', r', hc', hm', hgt', hinner⟩
    · have := hno cfg hcfg r hr
      omega
    · rcases hinner with ⟨e, s3, tr, hS2, heq⟩ | ⟨o, s3, tr, hS2, heq⟩
      · rw [hS] at hS2
        simp only [Prod.mk.injEq, Except.error.injEq] at hS2
        obtain ⟨he, hs3, _⟩ := hS2
        subst he
        subst hs3
        exact heq
      · rw [hS] at hS2
        simp at hS2

/-- Witness for C4: the concrete faulted append on `c4State`. -/
theorem C4_witness :
    add_memory genBoom c4State "r" "conversation" [] =
      (Except.error (PyError.genError "boom"),
        postAppend c4State "conversation"
          [Entry.mem ⟨"p", 0, []⟩, Entry.mem ⟨"q", 1, []⟩] ⟨"r", 0, []⟩) ∧
    bget (postAppend c4State "conversation"
        [Entry.mem ⟨"p", 0, []⟩, Entry.mem ⟨"q", 1, []⟩] ⟨"r", 0, []⟩).buckets
      "conversation" =
      some [Entry.mem ⟨"p", 0, []⟩, Entry.mem ⟨"q", 1, []⟩, Entry.mem ⟨"r", 0, []⟩] ∧
    bget (postAppend c4State "conversation"
        [Entry.mem ⟨"p", 0, []⟩, Entry.mem ⟨"q", 1, []⟩] ⟨"r", 0, []⟩).disk
      "conversation" =
      some [Entry.mem ⟨"p", 0, []⟩, Entry.mem ⟨"q", 1, []⟩, Entry.mem ⟨"r", 0, []⟩] := by
  have h := C4_generation_failure_propagates genBoom c4State "r" "conversation" []
    ⟨some 1, none⟩ 1 [Entry.mem ⟨"p", 0, []⟩, Entry.mem ⟨"q", 1, []⟩] "boom"
    (by decide) (by decide) (by decide) (by decide) (by decide) (fun p => rfl)
  exact h

/-! ### Claim C5 -/

/-- C5 as stated is false: reading a bucket name never appended to (and
not among the predefined buckets) raises `KeyError` instead of returning
the empty sequence. -/
theorem C5_counterexample :
    get_recent_memories (MMState.init [] 5 []) "mystery" none =
      (Except.error (PyError.keyError "mystery"), MMState.init [] 5 []) := by
  decide

/-- C5 (amended): for bucket names present in the store's bucket map,
`get_recent_memories` never fails, and returns the empty sequence when
the bucket is empty; for absent names it raises `KeyError`. -/
theorem C5_recent_never_fails_existing (s : MMState) (bn : String) (lim : Option Nat)
    (l : Bucket) (hl : bget s.buckets bn = some l) :
    ∃ res, get_recent_memories s bn lim = (Except.ok res, s) ∧ (l = [] → res = []) := by
  by_cases h0 : l = []
  · subst h0
    refine ⟨[], ?_, fun _ => rfl⟩
    simp only [get_recent_memories]
    rw [hl]
    rfl
  · refine ⟨if l.isEmpty then [] else
        pyTakeLast (match lim with
          | some n => n
          | none =>
            match cget s.bucket_configs bn with
            | some c => c.max_memories.getD s.max_recent_memories
            | none => s.max_recent_memories) l, ?_, ?_⟩
    · simp only [get_recent_memories]
      rw [hl]
    · intro hh
      exact absurd hh h0

/-- Witness for C5: reading the empty predefined `"conversation"` bucket. -/
theorem C5_witness :
    ∃ res, get_recent_memories (MMState.init [] 5 []) "conversation" none =
        (Except.ok res, MMState.init [] 5 []) ∧ (([] : Bucket) = [] → res = []) :=
  C5_recent_never_fails_existing (MMState.init [] 5 []) "conversation" none [] (by decide)

/-! ### Claim C6 -/

/-- A reachable state of the `"sense_impressions"` bucket (retention 2)
after a compaction and one further append: three live entries plus one
stored summary. -/
def c6State : MMState :=
  { max_recent_memories := 5
    bucket_configs := [("sense_impressions", ⟨some 2, none⟩)]
    buckets := [("sense_impressions",
        [Entry.mem ⟨"d", 3, []⟩, Entry.mem ⟨"e", 4, []⟩, Entry.mem ⟨"f", 6, []⟩]),
      ("sense_impressions_summaries",
        [Entry.summ ⟨"GIST", 5, "sense_impressions", 3, 0, 2⟩])]
    disk := []
    clock := 7 }

/-- C6 as stated is false: `get_bucket_with_summaries` returns the summary
followed by ALL current entries of the bucket (here 4 elements, including
`"d"`), not the summary followed by `recent(B, retention) = 2` entries. -/
theorem C6_counterexample :
    ((get_bucket_with_summaries c6State "sense_impressions" true).1.toOption.getD []).length
      = 4 ∧
    ((get_bucket_with_summaries c6State "sense_impressions" true).1.toOption.getD []).drop 1
      = [Entry.mem ⟨"d", 3, []⟩, Entry.mem ⟨"e", 4, []⟩, Entry.mem ⟨"f", 6, []⟩] ∧
    (get_recent_memories c6State "sense_impressions" (some 2)).1 =
      Except.ok [Entry.mem ⟨"e", 4, []⟩, Entry.mem ⟨"f", 6, []⟩] ∧
    (4 : Nat) ≠ 1 + 2 ∧ (4 : Nat) ≠ 2 := by
  decide

/-- C6 (amended): `with_context(B)` returns the synthesized summary entry
(when a non-empty summary bucket exists) followed by ALL entries currently
stored in B — not only the most recent `retention_count` — and the
synthesized entry has the claimed shape (prefixed content, `is_summary`,
`entries_summarized`); with no summary bucket it returns B's entries. -/
theorem C6_with_context_shape (s : MMState) (bn : String) (mems : Bucket)
    (hm : bget s.buckets bn = some mems) :
    (∀ x xs, bget s.buckets (bn ++ "_summaries") = some (x :: xs) →
      ∃ sm : MemoryEntry,
        get_bucket_with_summaries s bn true = (Except.ok (Entry.mem sm :: mems), s) ∧
        sm.content =
          "SUMMARY OF OLDER " ++ bn.toUpper ++ ": " ++ ((x :: xs).getLastD x).content ∧
        sm.timestamp = ((x :: xs).getLastD x).timestamp ∧
        sm.metadata = [("is_summary", MetaVal.bool true),
          ("entries_summarized", MetaVal.nat ((x :: xs).getLastD x).entriesSummarizedD)]) ∧
    (bget s.buckets (bn ++ "_summaries") = none →
      get_bucket_with_summaries s bn true = (Except.ok mems, s)) := by
  constructor
  · intro x xs hsb
    refine ⟨⟨"SUMMARY OF OLDER " ++ bn.toUpper ++ ": " ++ ((x :: xs).getLastD x).content,
        ((x :: xs).getLastD x).timestamp,
        [("is_summary", MetaVal.bool true),
         ("entries_summarized", MetaVal.nat ((x :: xs).getLastD x).entriesSummarizedD)]⟩,
      ?_, rfl, rfl, rfl⟩
    simp only [get_bucket_with_summaries]
    rw [hm]
    dsimp only
    rw [hsb]
  · intro hsb
    simp only [get_bucket_with_summaries]
    rw [hm]
    dsimp only
    rw [hsb]

/-- Witness for C6 at `c6State`. -/
theorem C6_witness :
    ∃ sm : MemoryEntry,
      get_bucket_with_summaries c6State "sense_impressions" true =
        (Except.ok (Entry.mem sm ::
          [Entry.mem ⟨"d", 3, []⟩, Entry.mem ⟨"e", 4, []⟩, Entry.mem ⟨"f", 6, []⟩]), c6State) ∧
      sm.content = "SUMMARY OF OLDER " ++ "sense_impressions".toUpper ++ ": " ++
        (([Entry.summ ⟨"GIST", 5, "sense_impressions", 3, 0, 2⟩] : List Entry).getLastD
          (Entry.summ ⟨"GIST", 5, "sense_impressions", 3, 0, 2⟩)).content ∧
      sm.timestamp = (([Entry.summ ⟨"GIST", 5, "sense_impressions", 3, 0, 2⟩] : List Entry).getLastD
          (Entry.summ ⟨"GIST", 5, "sense_impressions", 3, 0, 2⟩)).timestamp ∧
      sm.metadata = [("is_summary", MetaVal.bool true),
        ("entries_summarized", MetaVal.nat
          (([Entry.summ ⟨"GIST", 5, "sense_impressions", 3, 0, 2⟩] : List Entry).getLastD
            (Entry.summ ⟨"GIST", 5, "sense_impressions", 3, 0, 2⟩)).entriesSummarizedD)] :=
  (C6_with_context_shape c6State "sense_impressions"
      [Entry.mem ⟨"d", 3, []⟩, Entry.mem ⟨"e", 4, []⟩, Entry.mem ⟨"f", 6, []⟩]
      (by decide)).1
    (Entry.summ ⟨"GIST", 5, "sense_impressions", 3, 0, 2⟩) [] (by decide)

/-! ### Claim C7 -/

/-- A fresh store registering `"notes"` with retention 2 — but `"notes"`
is not one of the predefined buckets. -/
def c7NotesState : MMState := MMState.init [] 5 [("notes", ⟨some 2, none⟩)]

/-- C7 as stated is false: the scenario's very first append to `"notes"`
raises `KeyError` (buckets are not created lazily), and after attempting
all five appends neither `"notes"` nor `"notes_summaries"` exists. -/
theorem C7_counterexample :
    (add_memory genGist c7NotesState "a" "notes" []).1 =
      Except.error (PyError.keyError "notes") ∧
    bget (runOps genGist c7NotesState
        [⟨"a", "notes", []⟩, ⟨"b", "notes", []⟩, ⟨"c", "notes", []⟩,
         ⟨"d", "notes", []⟩, ⟨"e", "notes", []⟩]).buckets "notes" = none ∧
    bget (runOps genGist c7NotesState
        [⟨"a", "notes", []⟩, ⟨"b", "notes", []⟩, ⟨"c", "notes", []⟩,
         ⟨"d", "notes", []⟩, ⟨"e", "notes", []⟩]).buckets "notes_summaries" = none := by
  decide

/-- A fresh store registering the predefined bucket `"sense_impressions"`
with retention 2. -/
def c7State0 : MMState := MMState.init [] 5 [("sense_impressions", ⟨some 2, none⟩)]

/-- One scenario append to `"sense_impressions"` with a succeeding
generation capability. -/
def c7Step (s : MMState) (c : String) : MMState :=
  (add_memory genGist s c "sense_impressions" []).2

/-- The scenario state after appending `"a"`, `"b"`, `"c"`, `"d"`. -/
def c7After4 : MMState := c7Step (c7Step (c7Step (c7Step c7State0 "a") "b") "c") "d"

/-- The scenario state after the fifth append `"e"`. -/
def c7Final : MMState := c7Step c7After4 "e"

/-- C7 (amended): the scenario holds verbatim on a predefined bucket:
registering `"sense_impressions"` with retention 2 and appending
`"a".."e"`, no compaction fires before the 5th append; the 5th append
returns its entry and fires compaction, leaving exactly `["d","e"]` in
the bucket and exactly one SummaryEntry with `entries_summarized = 3`
whose first/last timestamps are those of `"a"` and `"c"`. -/
theorem C7_scenario_predefined :
    bget c7After4.buckets ("sense_impressions" ++ "_summaries") = none ∧
    ((bget c7After4.buckets "sense_impressions").getD []).length = 4 ∧
    (add_memory genGist c7After4 "e" "sense_impressions" []).1 =
      Except.ok ⟨"e", 4, []⟩ ∧
    bget c7Final.buckets "sense_impressions" =
      some [Entry.mem ⟨"d", 3, []⟩, Entry.mem ⟨"e", 4, []⟩] ∧
    bget c7Final.buckets ("sense_impressions" ++ "_summaries") =
      some [Entry.summ ⟨"GIST", 5, "sense_impressions", 3, 0, 2⟩] ∧
    bget c7Final.disk ("sense_impressions" ++ "_summaries") =
      some [Entry.summ ⟨"GIST", 5, "sense_impressions", 3, 0, 2⟩] := by
  decide

/-! ### Claim C8 -/

/-- C8 as stated is false at `n = 0`: on a non-empty bucket,
`recent(B, 0)` returns the entire bucket (Python `[-0:]` is the whole
list), not the last zero entries. -/
theorem C8_counterexample :
    (get_recent_memories (MMState.init [("conversation", [Entry.mem ⟨"a", 0, []⟩])] 5 [])
        "conversation" (some 0)).1 = Except.ok [Entry.mem ⟨"a", 0, []⟩] ∧
    (0 : Nat) ≤ [Entry.mem ⟨"a", 0, []⟩].length ∧
    [Entry.mem ⟨"a", 0, []⟩].length ≠ 0 := by
  decide

/-- C8 (amended): for `1 ≤ n ≤ len(B)`, `recent(B, n)` returns exactly the
last `n` appended entries in append order (`recent(B, 0)` instead returns
the whole bucket); an omitted limit uses the bucket's configured
`max_memories` when present, else the process-wide default. -/
theorem C8_recent_last_n (s : MMState) (bn : String) (l : Bucket) (n : Nat)
    (hl : bget s.buckets bn = some l) :
    (1 ≤ n → n ≤ l.length →
      get_recent_memories s bn (some n) = (Except.ok (l.drop (l.length - n)), s) ∧
      (l.drop (l.length - n)).length = n) ∧
    (∀ cfg r, cget s.bucket_configs bn = some cfg → cfg.max_memories = some r →
      get_recent_memories s bn none = get_recent_memories s bn (some r)) ∧
    (∀ cfg, cget s.bucket_configs bn = some cfg → cfg.max_memories = none →
      get_recent_memories s bn none = get_recent_memories s bn (some s.max_recent_memories)) ∧
    (cget s.bucket_configs bn = none →
      get_recent_memories s bn none = get_recent_memories s bn (some s.max_recent_memories)) := by
  refine ⟨?_, ?_, ?_, ?_⟩
  · intro h1 h2
    have hlne : l ≠ [] := by
      intro h0
      subst h0
      simp at h2
      omega
    have hemp : l.isEmpty = false := by
      cases l with
      | nil => exact absurd rfl hlne
      | cons a as => rfl
    constructor
    · simp only [get_recent_memories]
      rw [hl]
      dsimp only
      rw [hemp]
      simp only [pyTakeLast]
      have hn0 : ¬(n = 0) := by omega
      rw [if_neg hn0]
      simp
    · rw [List.length_drop]
      omega
  · intro cfg r hcfg hr
    simp [get_recent_memories, hcfg, hr]
  · intro cfg hcfg hm
    simp [get_recent_memories, hcfg, hm]
  · intro hc
    simp [get_recent_memories, hc]

/-- Witness for C8: the last 1 entry of a 1-entry bucket. -/
theorem C8_witness :
    get_recent_memories (MMState.init [("conversation", [Entry.mem ⟨"a", 0, []⟩])] 5 [])
        "conversation" (some 1) =
      (Except.ok ([Entry.mem ⟨"a", 0, []⟩].drop ([Entry.mem ⟨"a", 0, []⟩].length - 1)),
        MMState.init [("conversation", [Entry.mem ⟨"a", 0, []⟩])] 5 []) ∧
    ([Entry.mem ⟨"a", 0, []⟩].drop ([Entry.mem ⟨"a", 0, []⟩].length - 1)).length = 1 :=
  (C8_recent_last_n (MMState.init [("conversation", [Entry.mem ⟨"a", 0, []⟩])] 5 [])
      "conversation" [Entry.mem ⟨"a", 0, []⟩] 1 (by decide)).1 (by decide) (by decide)

/-! ### Claim C9 -/

/-- C9: `with_context(B)` is a pure read — it leaves the whole store state
(all buckets, in memory and on disk) unchanged, and calling it twice with
no intervening writes returns identical results. -/
theorem C9_with_context_idempotent (s : MMState) (bn : String) (inc : Bool) :
    (get_bucket_with_summaries s bn inc).2 = s ∧
    (get_bucket_with_summaries (get_bucket_with_summaries s bn inc).2 bn inc).1 =
      (get_bucket_with_summaries s bn inc).1 := by
  have h2 : (get_bucket_with_summaries s bn inc).2 = s := by
    simp only [get_bucket_with_summaries]
    split
    · rfl
    · split <;> rfl
  exact ⟨h2, by rw [h2]⟩

/-! ### Claim C10 -/

/-- Whether a bucket name is a derived summary-bucket name, i.e. ends in
`"_summaries"` (stated over the character list so it is computable by the
kernel). -/
def isSummaryName (n : String) : Bool := "_summaries".data.isSuffixOf n.data

theorem add_memory_summary_mono (gen : Gen) (s : MMState) (c bn : String)
    (md : List (String × MetaVal)) (S : String)
    (hbn : isSummaryName bn = false) (hS : isSummaryName S = true) :
    ((bget s.buckets S).getD []).length ≤
      ((bget (add_memory gen s c bn md).2.buckets S).getD []).length := by
  have hSbn : S ≠ bn := by
    intro h0
    rw [h0, hbn] at hS
    cases hS
  rcases add_memory_spec gen s c bn md with ⟨hnone, heq⟩ | ⟨l, hl, hrest⟩
  · rw [heq]
  · have hrest2 := hrest (postAppend s bn l ⟨c, s.clock, md⟩) rfl
    have hpa : bget (postAppend s bn l ⟨c, s.clock, md⟩).buckets S = bget s.buckets S := by
      simp only [postAppend]
      exact bget_bset_ne _ _ _ _ hSbn
    rcases hrest2 with ⟨hno, heq⟩ | ⟨cfg', r', hc', hm', hgt', hinner⟩
    · rw [heq]
      dsimp only
      rw [hpa]
    · rcases hinner with ⟨e, s3, tr, hS2, heq⟩ | ⟨o, s3, tr, hS2, heq⟩
      · obtain ⟨hs3, _⟩ := summarize_bucket_error gen _ bn e s3 tr hS2
        rw [heq]
        dsimp only
        rw [hs3, hpa]
      · cases o with
        | none =>
          obtain ⟨hs3, _, _⟩ := summarize_bucket_ok_none gen _ bn s3 tr hS2
          rw [heq]
          dsimp only
          rw [hs3, hpa]
        | some se =>
          obtain ⟨cur, hcur, _, hs3f, _⟩ := summarize_bucket_ok_some gen _ bn se s3 tr hS2
          rw [heq]
          dsimp only
          rw [hs3f]
          by_cases hsb : S = bn ++ "_summaries"
          · subst hsb
            obtain ⟨_, hsb2, _, _, _⟩ :=
              compaction_final (postAppend s bn l ⟨c, s.clock, md⟩) bn
                (pyTakeLast
                  (effectiveMaxMemories (postAppend s bn l ⟨c, s.clock, md⟩) bn) cur) se
            rw [hpa] at hsb2
            rw [hsb2]
            simp only [Option.getD_some, List.length_append, List.length_singleton]
            omega
          · obtain ⟨_, _, hoth, _, _⟩ :=
              compaction_final (postAppend s bn l ⟨c, s.clock, md⟩) bn
                (pyTakeLast
                  (effectiveMaxMemories (postAppend s bn l ⟨c, s.clock, md⟩) bn) cur) se
            rw [hoth S hSbn hsb, hpa]

/-- C10: over any sequence of appends to buckets whose names are not
summary-bucket names, every summary bucket's length is non-decreasing
(never compacted, truncated, or pruned); and every successful compaction
of a bucket appends exactly one SummaryEntry to its derived summary
bucket, evaluating no compaction trigger for it. -/
theorem C10_summary_buckets_monotone (gen : Gen) (s : MMState) (ops : List Op) (S : String)
    (hops : ∀ op ∈ ops, isSummaryName op.bucket = false)
    (hS : isSummaryName S = true) :
    ((bget s.buckets S).getD []).length ≤
      ((bget (runOps gen s ops).buckets S).getD []).length ∧
    (∀ (gen' : Gen) (s' : MMState) (bn : String) (se : SummaryEntry)
        (sf : MMState) (tr : List MMState),
      summarize_bucket gen' s' bn = (Except.ok (some se), sf, tr) →
      bget sf.buckets (bn ++ "_summaries") =
        some (((bget s'.buckets (bn ++ "_summaries")).getD []) ++ [Entry.summ se])) := by
  constructor
  · induction ops generalizing s with
    | nil => simp [runOps]
    | cons op rest ih =>
      simp only [runOps]
      have h1 := add_memory_summary_mono gen s op.content op.bucket op.metadata S
        (hops op (List.mem_cons_self op rest)) hS
      have h2 := ih ((add_memory gen s op.content op.bucket op.metadata).2)
        (fun o ho => hops o (List.mem_cons_of_mem op ho))
      exact le_trans h1 h2
  · intro gen' s' bn se sf tr hok
    obtain ⟨cur, hcur, _, hsf, _⟩ := summarize_bucket_ok_some gen' s' bn se sf tr hok
    subst hsf
    exact (compaction_final s' bn
      (pyTakeLast (effectiveMaxMemories s' bn) cur) se).2.1

/-- Witness for C10: two appends to ordinary buckets leave
`"conversation_summaries"` no shorter. -/
theorem C10_witness :
    ((bget (MMState.init [] 5 []).buckets "conversation_summaries").getD []).length ≤
      ((bget (runOps genGist (MMState.init [] 5 [])
          [⟨"a", "conversation", []⟩, ⟨"b", "sense_impressions", []⟩]).buckets
        "conversation_summaries").getD []).length :=
  (C10_summary_buckets_monotone genGist (MMState.init [] 5 [])
      [⟨"a", "conversation", []⟩, ⟨"b", "sense_impressions", []⟩]
      "conversation_summaries" (by decide) (by decide)).1

end HobbesianMind

